import Mathlib

/-!
Shallow embedding of `go.nownabe.dev/errors` (src/errors.go), a structured
error-chaining library.  A Go `error` interface value is modelled by the
inductive `GoError`: it is either the nil interface, an opaque leaf error
carrying its display text, or a `*appError` chain node.  Functions that can
panic in Go (`Error`, `Msg` on a nil input) return `Option String`, with
`none` standing for the panic.  The runtime call-stack capture
(`runtime.Callers` / `location()`) is outside the embedding: the resolved
(function, file, line) triple that `location()` would return is carried as
explicit data `loc` on each node, supplied as a parameter of `E`.
-/

namespace Errors

/-- A Go `error` interface value: the nil interface, an opaque leaf error
with its display text, or a `*appError` chain node with fields
`err`, `msg`, `op`, `kind`, `level` (as in the Go struct) plus the
resolved call-site location `loc` standing in for the `frames` snapshot. -/
inductive GoError : Type where
  | nilErr : GoError
  | leaf (text : String) : GoError
  | appError (err : GoError) (msg : String) (op : String) (kind : Int)
      (level : Int) (loc : String × String × Int) : GoError
deriving DecidableEq

/-- `KindBadRequest` is a kind. (`http.StatusBadRequest`) -/
def KindBadRequest : Int := 400

/-- `KindUnauthorized` is a kind. (`http.StatusUnauthorized`) -/
def KindUnauthorized : Int := 401

/-- `KindForbidden` is a kind. (`http.StatusForbidden`) -/
def KindForbidden : Int := 403

/-- `KindNotFound` is a kind. (`http.StatusNotFound`) -/
def KindNotFound : Int := 404

/-- `KindUnexpected` is a kind. (`http.StatusInternalServerError`) -/
def KindUnexpected : Int := 500

/-- The external `go.nownabe.dev/log` package's `LevelError` severity
constant.  Modelled from the spec: levels are an externally defined ordered
enumeration with 0 reserved as "unset"; the exact nonzero value of the
"error" default is not fixed by this repository and is irrelevant to the
claims, only its identity as the documented default matters. -/
def LevelError : Int := 4

/-- The external `net/http` `StatusText` table, restricted to the kind
constants this package defines; unknown codes map to `""` as in `net/http`. -/
def StatusText (code : Int) : String :=
  if code = 400 then "Bad Request"
  else if code = 401 then "Unauthorized"
  else if code = 403 then "Forbidden"
  else if code = 404 then "Not Found"
  else if code = 500 then "Internal Server Error"
  else ""

/-- A variadic argument to `E`, one constructor per arm of the Go type
switch (`error`, `string`, `log.Level`, `int`); `otherArg` stands for a
value of any other dynamic type, which the switch ignores. -/
inductive Arg : Type where
  | errArg (e : GoError) : Arg
  | strArg (s : String) : Arg
  | levelArg (l : Int) : Arg
  | intArg (k : Int) : Arg
  | otherArg : Arg
deriving DecidableEq

/-- The mutable fields of the `appError` being built by `E` (all but the
frame snapshot). -/
structure EState : Type where
  err : GoError
  msg : String
  op : String
  kind : Int
  level : Int
deriving DecidableEq

/-- One iteration of `E`'s argument loop: the type switch overwrites the
field matching the argument's dynamic type. -/
def applyArg (st : EState) (a : Arg) : EState :=
  match a with
  | .errArg e => { st with err := e }
  | .strArg s => { st with msg := s }
  | .levelArg l => { st with level := l }
  | .intArg k => { st with kind := k }
  | .otherArg => st

/-- The field values of the node `E op args` constructs: start from
`&appError{op: op}` (zero values elsewhere) and fold the argument loop. -/
def EBuild (op : String) (args : List Arg) : EState :=
  args.foldl applyArg ⟨.nilErr, "", op, 0, 0⟩

/-- `E` constructs an error.  `loc` is the call-site location that
`runtime.Callers` captures into the frame snapshot, resolved. -/
def E (op : String) (loc : String × String × Int) (args : List Arg) : GoError :=
  let st := EBuild op args
  .appError st.err st.msg st.op st.kind st.level loc

/-- `Ops` aggregates the error's operations with embedded errors. -/
def Ops : GoError → List String
  | .appError e _ op _ _ _ => op :: Ops e
  | _ => []

/-- `Kind` returns error's kind. -/
def Kind : GoError → Int
  | .appError e _ _ k _ _ => if k ≠ 0 then k else Kind e
  | _ => KindUnexpected

/-- `KindText` returns a friendly string of the Kind type. -/
def KindText (err : GoError) : String :=
  StatusText (Kind err)

/-- `Level` returns error's level. -/
def Level : GoError → Int
  | .appError e _ _ _ l _ => if l ≠ 0 then l else Level e
  | _ => LevelError

/-- `Is` checks error's kind. -/
def Is (err : GoError) (kind : Int) : Bool :=
  if err = .nilErr then false else Kind err = kind

/-- The `Error()` method evaluated on any error value: a leaf yields its
own text, a chain node delegates to `err.err.Error()`; calling it on the
nil interface (or on a node whose cause is nil) panics, modelled `none`. -/
def Error : GoError → Option String
  | .nilErr => none
  | .leaf text => some text
  | .appError e _ _ _ _ _ => Error e

/-- The accumulation loop of `Msg`: the current node's `msg` is appended
(first non-empty message initialises the accumulator, later ones join with
`": "`), then the loop moves to the cause while it is a chain node. -/
def msgWalk : GoError → String → Bool → String
  | .appError e m _ _ _ _, msg, first =>
    if m ≠ "" then
      if first then msgWalk e m false
      else msgWalk e (msg ++ ": " ++ m) false
    else msgWalk e msg first
  | _, msg, _ => msg

/-- `Msg` returns error message for clients.  On a non-node input it
returns `err.Error()` (which panics on nil, hence `Option`). -/
def Msg : GoError → Option String
  | .nilErr => none
  | .leaf text => some text
  | .appError e m o k l loc =>
    let msg := msgWalk (.appError e m o k l loc) "" true
    some (if msg = "" then StatusText (Kind (.appError e m o k l loc)) else msg)

/-- `Stacktrace` returns an array of stacktrace tupples that includes
function, file and line.  A node's triple is kept only when both function
and file are non-empty. -/
def Stacktrace : GoError → List (String × String × String)
  | .appError e _ _ _ _ (function, file, line) =>
    (if function ≠ "" ∧ file ≠ "" then [(function, file, toString line)] else [])
      ++ Stacktrace e
  | _ => []

/-- The `Unwrap()` method of `*appError`: returns the wrapped error.  On a
non-node value (where Go defines no such method) it is the identity. -/
def Unwrap : GoError → GoError
  | .appError e _ _ _ _ _ => e
  | e => e

/-- Whether an error value is a chain node, i.e. whether the Go type
assertion `err.(*appError)` succeeds. -/
def isNode : GoError → Bool
  | .appError _ _ _ _ _ _ => true
  | _ => false

/-- Whether a variadic argument is of the error kind, i.e. whether the
`case error:` arm of the type switch matches it. -/
def isErrArg : Arg → Bool
  | .errArg _ => true
  | _ => false

/-- The local `kind` fields of the chain nodes from the given value inward,
outermost first (spec-side view of the chain for kind resolution). -/
def kindList : GoError → List Int
  | .appError e _ _ k _ _ => k :: kindList e
  | _ => []

/-- The per-node `msg` fields of the chain nodes from the given value
inward, outermost first (spec-side view for message aggregation). -/
def msgList : GoError → List String
  | .appError e m _ _ _ _ => m :: msgList e
  | _ => []

/-- Modelled from the spec: kind resolution returns the first non-zero
local kind walking outermost-to-innermost, or the "unexpected" default
when no node in the chain sets one. -/
def specKind (e : GoError) : Int :=
  (((kindList e).filter (fun k => k ≠ 0)).head?).getD KindUnexpected

/-- Modelled from the spec: the aggregated client message of a chain —
among the per-node messages (outermost first) the first non-empty one
becomes the initial value, each subsequent non-empty one is appended with
a `": "` separator; if none is non-empty, fall back to the kind's human
text for the chain. -/
def specMsg (e : GoError) : String :=
  match (msgList e).filter (fun m => m ≠ "") with
  | [] => StatusText (Kind e)
  | m :: rest => rest.foldl (fun acc x => acc ++ ": " ++ x) m

/-- `ChainOf e n l`: `e` consists of exactly `n` chain nodes wrapping the
error value `l`. -/
def ChainOf : GoError → Nat → GoError → Bool
  | e, 0, l => e = l
  | .appError c _ _ _ _ _, n + 1, l => ChainOf c n l
  | _, _ + 1, _ => false

/-- A sample call-site location for concrete instances. -/
def loc0 : String × String × Int := ("main.handler", "/app/main.go", 42)

/-- A sample two-node chain over the leaf error `"boom"`, built directly
from the node constructor. -/
def exChain2 : GoError :=
  .appError (.appError (.leaf "boom") "inner" "op2" 0 0 loc0) "outer" "op" 0 0 loc0

/-- The same two-node chain built through the constructor `E`, as in
`E("op", "outer", E("op2", "inner", leaf))`. -/
def exWrap2 : GoError :=
  E "op" loc0 [.strArg "outer", .errArg (E "op2" loc0 [.strArg "inner", .errArg (.leaf "boom")])]

/-- Kind resolution computes the first-non-zero-kind view of the chain. -/
theorem kind_eq_specKind (e : GoError) : Kind e = specKind e := by
  induction e with
  | nilErr => rfl
  | leaf t => rfl
  | appError c m o k l loc ih =>
    by_cases hk : k = 0
    · subst hk
      simpa [Kind, specKind, kindList, List.filter_cons] using ih
    · simp [Kind, specKind, kindList, List.filter_cons, hk]

/-- The resolved kind of any error value is non-zero. -/
theorem kind_ne_zero (e : GoError) : Kind e ≠ 0 := by
  induction e with
  | nilErr => simp [Kind, KindUnexpected]
  | leaf t => simp [Kind, KindUnexpected]
  | appError c m o k l loc ih =>
    by_cases hk : k = 0
    · subst hk; simpa [Kind] using ih
    · simp [Kind, hk]

/-- C1: if `e` is not a chain node, `Kind e` is the "unexpected" default
constant (500); on a chain node with non-zero local kind it returns that
kind, and otherwise the kind of the cause; altogether resolution returns
the first non-zero kind walking outermost-to-innermost, or the default
when no node in the chain sets one. -/
theorem kind_resolution :
    (∀ e : GoError, Kind e = specKind e) ∧
    (Kind .nilErr = KindUnexpected) ∧
    (∀ t, Kind (.leaf t) = KindUnexpected) ∧
    (∀ c m o k l loc, Kind (.appError c m o k l loc) = if k ≠ 0 then k else Kind c) :=
  ⟨kind_eq_specKind, rfl, fun _ => rfl, fun _ _ _ _ _ _ => rfl⟩

/-- C10: the resolved kind is never the reserved "unset" sentinel 0 — it
is some node's non-zero local kind or the non-zero "unexpected" default —
and consequently `Is e 0` is false for every error value `e`. -/
theorem kind_never_zero :
    (∀ e : GoError, Kind e ≠ 0) ∧ (∀ e : GoError, Is e 0 = false) := by
  refine ⟨kind_ne_zero, fun e => ?_⟩
  by_cases he : e = .nilErr
  · simp [Is, he]
  · simp [Is, he, kind_ne_zero e]

/-- C6: `Ops` collects the operation labels of the chain nodes from the
input inward, outermost first, including empty labels, stopping at (and
excluding) the first non-node value; on a non-node input it is the empty
sequence, and `Ops` of `wrap("a", wrap("b", leaf))` is `["a", "b"]`. -/
theorem ops_collects_operations :
    (Ops .nilErr = []) ∧
    (∀ t, Ops (.leaf t) = []) ∧
    (∀ c m o k l loc, Ops (.appError c m o k l loc) = o :: Ops c) ∧
    (∀ loc loc2 t, Ops (E "a" loc [.errArg (E "b" loc2 [.errArg (.leaf t)])]) = ["a", "b"]) :=
  ⟨rfl, fun _ => rfl, fun _ _ _ _ _ _ => rfl, fun _ _ _ => rfl⟩

/-- C7: `Is` on the nil error returns false for every kind (it does not
fail), and on any non-nil error it returns true exactly when the resolved
kind equals the candidate kind. -/
theorem is_matches_kind :
    (∀ k, Is .nilErr k = false) ∧
    (∀ e k, e ≠ GoError.nilErr → (Is e k = true ↔ Kind e = k)) := by
  constructor
  · intro k; simp [Is]
  · intro e k he; simp [Is, he]

/-- Witness for C7 at the leaf error `"x"` and kind 500. -/
theorem is_matches_kind_witness :
    GoError.leaf "x" ≠ GoError.nilErr ∧
    (Is (GoError.leaf "x") 500 = true ↔ Kind (GoError.leaf "x") = 500) :=
  ⟨by decide, is_matches_kind.2 (GoError.leaf "x") 500 (by decide)⟩

/-- C8: within one construction call, the last variadic argument of each
metadata kind (error, string message, level, integer kind) determines the
corresponding field of the new node — later arguments overwrite earlier
ones of the same kind — and construction always succeeds, yielding a chain
node carrying exactly the built fields. -/
theorem last_argument_wins :
    (∀ op args e0, (EBuild op (args ++ [.errArg e0])).err = e0) ∧
    (∀ op args s, (EBuild op (args ++ [.strArg s])).msg = s) ∧
    (∀ op args l, (EBuild op (args ++ [.levelArg l])).level = l) ∧
    (∀ op args k, (EBuild op (args ++ [.intArg k])).kind = k) ∧
    (∀ op loc args, E op loc args =
      .appError (EBuild op args).err (EBuild op args).msg (EBuild op args).op
        (EBuild op args).kind (EBuild op args).level loc) ∧
    (∀ op loc args, isNode (E op loc args) = true) := by
  refine ⟨?_, ?_, ?_, ?_, fun _ _ _ => rfl, fun _ _ _ => rfl⟩ <;>
    intro op args x <;>
    simp [EBuild, List.foldl_append, List.foldl_cons, List.foldl_nil, applyArg]

/-- A string append with a non-empty left part is non-empty. -/
theorem append_ne_empty (a b : String) (h : a ≠ "") : a ++ b ≠ "" := by
  intro hab
  apply h
  have hl := congrArg String.length hab
  simp [String.length_append] at hl
  exact congrArg String.mk (List.length_eq_zero.mp hl.1)

/-- Joining further pieces onto a non-empty message keeps it non-empty. -/
theorem foldl_sep_ne_empty (rest : List String) (m : String) (hm : m ≠ "") :
    rest.foldl (fun a x => a ++ ": " ++ x) m ≠ "" := by
  induction rest generalizing m with
  | nil => exact hm
  | cons x xs ih =>
    rw [List.foldl_cons]
    exact ih _ (append_ne_empty _ _ (append_ne_empty _ _ hm))

/-- Once a first message is fixed, `msgWalk` left-folds the remaining
non-empty per-node messages onto the accumulator with `": "`. -/
theorem msgWalk_false (e : GoError) :
    ∀ acc, msgWalk e acc false =
      ((msgList e).filter (fun m => m ≠ "")).foldl (fun a x => a ++ ": " ++ x) acc := by
  induction e with
  | nilErr => intro acc; rfl
  | leaf t => intro acc; rfl
  | appError c m o k l loc ih =>
    intro acc
    by_cases hm : m = ""
    · subst hm
      simpa [msgWalk, msgList, List.filter_cons] using ih acc
    · simp [msgWalk, msgList, List.filter_cons, hm, ih]

/-- Before any message is taken, `msgWalk` computes the `": "`-joined
non-empty per-node messages, or `""` when every node's message is empty. -/
theorem msgWalk_true (e : GoError) :
    msgWalk e "" true =
      match (msgList e).filter (fun m => m ≠ "") with
      | [] => ""
      | m :: rest => rest.foldl (fun a x => a ++ ": " ++ x) m := by
  induction e with
  | nilErr => rfl
  | leaf t => rfl
  | appError c m o k l loc ih =>
    by_cases hm : m = ""
    · subst hm
      simpa [msgWalk, msgList, List.filter_cons] using ih
    · simp [msgWalk, msgList, List.filter_cons, hm, msgWalk_false]

/-- C2: on a chain whose outermost value is a chain node, `Msg`
concatenates exactly the non-empty per-node messages, outermost first,
joined by `": "` (the leaf error's own text excluded); when every node's
message is empty it falls back to the kind's human text for the chain. -/
theorem msg_aggregates (e : GoError) (h : isNode e = true) :
    Msg e = some (specMsg e) := by
  cases e with
  | nilErr => simp [isNode] at h
  | leaf t => simp [isNode] at h
  | appError c m o k l loc =>
    have hw := msgWalk_true (.appError c m o k l loc)
    rcases hf : (msgList (GoError.appError c m o k l loc)).filter (fun x => x ≠ "") with
      _ | ⟨m0, rest⟩
    · rw [hf] at hw
      simp only [ne_eq, decide_not] at hf
      simp [Msg, specMsg, hf, hw]
    · rw [hf] at hw
      have hm0 : m0 ≠ "" := by
        have hmem : m0 ∈ (msgList (GoError.appError c m o k l loc)).filter (fun x => x ≠ "") := by
          rw [hf]; exact List.mem_cons_self _ _
        simpa using (List.mem_filter.mp hmem).2
      have hne := foldl_sep_ne_empty rest m0 hm0
      simp only [ne_eq, decide_not] at hf
      simp [Msg, specMsg, hf, hw, hne]

/-- Witness for C2: `Msg` of `E("op", "outer", E("op2", "inner", leaf))`
is `"outer: inner"`. -/
theorem msg_aggregates_witness :
    isNode exWrap2 = true ∧ Msg exWrap2 = some "outer: inner" :=
  ⟨by decide, (msg_aggregates exWrap2 (by decide)).trans (by decide)⟩

/-- C3 counterexample: `Msg` applied to the nil error calls `Error()` on
the nil interface and panics (modelled as `none`) instead of degrading to
a default display text, so not every traversal function is total on nil. -/
theorem msg_nil_panics : Msg GoError.nilErr = none := rfl

/-- C3 (amended): `Ops`, `Kind`, `KindText` and `Level` are total on every
input including nil, degrading on non-node inputs to their documented
defaults (kind 500, the "error" severity, the empty operation list, the
default kind's text); `Msg` returns the input's own display text on a
non-nil non-node input and never fails on any non-nil input, but `Msg` of
nil panics. -/
theorem traversal_totality :
    (∀ e, isNode e = false →
      Kind e = KindUnexpected ∧ Level e = LevelError ∧ Ops e = [] ∧
      KindText e = StatusText KindUnexpected) ∧
    (∀ t, Msg (.leaf t) = some t) ∧
    (∀ e, e ≠ GoError.nilErr → (Msg e).isSome = true) := by
  refine ⟨fun e he => ?_, fun t => rfl, fun e he => ?_⟩
  · cases e with
    | nilErr => exact ⟨rfl, rfl, rfl, rfl⟩
    | leaf t => exact ⟨rfl, rfl, rfl, rfl⟩
    | appError c m o k l loc => simp [isNode] at he
  · cases e with
    | nilErr => exact absurd rfl he
    | leaf t => rfl
    | appError c m o k l loc => rfl

/-- Witness for C3 at the leaf error `"x"`. -/
theorem traversal_totality_witness :
    (isNode (GoError.leaf "x") = false ∧
      (Kind (GoError.leaf "x") = KindUnexpected ∧ Level (GoError.leaf "x") = LevelError ∧
        Ops (GoError.leaf "x") = [] ∧ KindText (GoError.leaf "x") = StatusText KindUnexpected)) ∧
    (GoError.leaf "x" ≠ GoError.nilErr ∧ (Msg (GoError.leaf "x")).isSome = true) :=
  ⟨⟨by decide, traversal_totality.1 (GoError.leaf "x") (by decide)⟩,
   ⟨by decide, traversal_totality.2.2 (GoError.leaf "x") (by decide)⟩⟩

/-- C5: the plain display string of a chain of nodes terminating in a
non-nil leaf error is the leaf's own display string — `Error()` delegates
through every cause to the innermost error's text. -/
theorem error_delegates_to_leaf (e : GoError) (n : Nat) (t : String)
    (h : ChainOf e n (.leaf t) = true) : Error e = some t := by
  induction n generalizing e with
  | zero =>
    have he : e = .leaf t := by simpa [ChainOf] using h
    rw [he]; rfl
  | succ n ih =>
    cases e with
    | nilErr => simp [ChainOf] at h
    | leaf s => simp [ChainOf] at h
    | appError c m o k l loc =>
      have hc : ChainOf c n (.leaf t) = true := by simpa [ChainOf] using h
      simpa [Error] using ih c hc

/-- Witness for C5 on a two-node chain over the leaf `"boom"`. -/
theorem error_delegates_witness :
    ChainOf exChain2 2 (.leaf "boom") = true ∧ Error exChain2 = some "boom" :=
  ⟨by decide, error_delegates_to_leaf exChain2 2 "boom" (by decide)⟩

/-- Unwrapping follows the chain: `n` nodes over `l` unwrap to `l` in `n`
steps. -/
theorem chainOf_unwrap (n : Nat) :
    ∀ e l : GoError, ChainOf e n l = true → Unwrap^[n] e = l := by
  induction n with
  | zero =>
    intro e l h
    have he : e = l := by simpa [ChainOf] using h
    simpa using he
  | succ n ih =>
    intro e l h
    cases e with
    | nilErr => simp [ChainOf] at h
    | leaf s => simp [ChainOf] at h
    | appError c m o k lv loc =>
      rw [Function.iterate_succ_apply]
      exact ih c l (by simpa [ChainOf] using h)

/-- C9: applying the unwrap operation N times to the outermost of N chain
nodes wrapping a leaf error yields the original leaf error by identity. -/
theorem unwrap_roundtrip (e : GoError) (n : Nat) (t : String)
    (h : ChainOf e n (.leaf t) = true) : Unwrap^[n] e = .leaf t :=
  chainOf_unwrap n e (.leaf t) h

/-- Witness for C9 on a two-node chain over the leaf `"boom"`. -/
theorem unwrap_roundtrip_witness :
    ChainOf exChain2 2 (.leaf "boom") = true ∧ Unwrap^[2] exChain2 = .leaf "boom" :=
  ⟨by decide, unwrap_roundtrip exChain2 2 "boom" (by decide)⟩

/-- A fold of the argument loop over a list with no error-kind argument
leaves the `err` field of the state unchanged. -/
theorem no_errArg_keeps_err (args : List Arg) :
    ∀ st : EState, (∀ a ∈ args, isErrArg a = false) →
      (args.foldl applyArg st).err = st.err := by
  induction args with
  | nil => intro st _; rfl
  | cons a as ih =>
    intro st hargs
    rw [List.foldl_cons, ih (applyArg st a) (fun b hb => hargs b (List.mem_cons_of_mem _ hb))]
    have ha := hargs a (List.mem_cons_self _ _)
    cases a with
    | errArg e0 => simp [isErrArg] at ha
    | strArg s => rfl
    | levelArg l => rfl
    | intArg k => rfl
    | otherArg => rfl

/-- C4 counterexample: the `Error()` method of a node constructed with no
error-typed argument dereferences the absent cause and panics (modelled as
`none`), so such a node does not produce a display string. -/
theorem causeless_error_panics : Error (E "op" loc0 [.strArg "m"]) = none := rfl

/-- C4 (amended): a node constructed with no error-typed argument carries
the nil cause, every traversal function treats it as a leaf terminating
the chain (`Ops`, `Kind`, `Level`, `Msg`, `Stacktrace` stop there and
apply their defaults), and the node supports unwrapping (yielding the nil
error); however its `Error()` method panics on the absent cause instead of
producing a display string. -/
theorem causeless_node_terminates :
    (∀ op args, (∀ a ∈ args, isErrArg a = false) → (EBuild op args).err = .nilErr) ∧
    (∀ m o k l f fl ln,
      Ops (.appError .nilErr m o k l (f, fl, ln)) = [o] ∧
      Kind (.appError .nilErr m o k l (f, fl, ln)) = (if k ≠ 0 then k else KindUnexpected) ∧
      Level (.appError .nilErr m o k l (f, fl, ln)) = (if l ≠ 0 then l else LevelError) ∧
      Msg (.appError .nilErr m o k l (f, fl, ln)) =
        some (if m = "" then StatusText (if k ≠ 0 then k else KindUnexpected) else m) ∧
      Stacktrace (.appError .nilErr m o k l (f, fl, ln)) =
        (if f ≠ "" ∧ fl ≠ "" then [(f, fl, toString ln)] else []) ∧
      Unwrap (.appError .nilErr m o k l (f, fl, ln)) = .nilErr ∧
      Error (.appError .nilErr m o k l (f, fl, ln)) = none) := by
  constructor
  · intro op args hargs
    exact no_errArg_keeps_err args _ hargs
  · intro m o k l f fl ln
    refine ⟨rfl, rfl, rfl, ?_, ?_, rfl, rfl⟩
    · by_cases hm : m = ""
      · simp [Msg, msgWalk, hm, Kind]
      · simp [Msg, msgWalk, hm]
    · simp [Stacktrace]

/-- Witness for C4: the node built by `E("op", "m")` has the nil cause. -/
theorem causeless_node_terminates_witness :
    (∀ a ∈ [Arg.strArg "m"], isErrArg a = false) ∧
    (EBuild "op" [Arg.strArg "m"]).err = .nilErr :=
  ⟨by decide, causeless_node_terminates.1 "op" [Arg.strArg "m"] (by decide)⟩

end Errors
